import Mathlib

/-!
Shallow embedding of the BSON-JSON-bakeoff benchmarking scripts.

Python integers are modelled as `ℤ`/`ℕ`; Python float arithmetic on the
metric values is modelled exactly over `ℚ`, with Python's `round(x, n)`
(round half to even at `n` decimal places) modelled by `round2`/`round3`.
Python dicts read from `/proc` are modelled as association lists keyed by
device/interface name; dicts with a fixed key set are modelled as
structures whose fields are the keys.
-/

namespace BakeOff

/-! ### Python `round` on exact rationals -/

/-- Python `round(q)`: nearest integer, ties to even. -/
def pyRound (q : ℚ) : ℤ :=
  if q - (⌊q⌋ : ℚ) < 1/2 then ⌊q⌋
  else if 1/2 < q - (⌊q⌋ : ℚ) then ⌊q⌋ + 1
  else if ⌊q⌋ % 2 = 0 then ⌊q⌋ else ⌊q⌋ + 1

/-- Python `round(q, 2)`. -/
def round2 (q : ℚ) : ℚ := (pyRound (q * 100) : ℚ) / 100

/-- Python `round(q, 3)`. -/
def round3 (q : ℚ) : ℚ := (pyRound (q * 1000) : ℚ) / 1000

/-- Rationals with at most two decimal places: the possible outputs of
`round2`, closed under addition.  Used to show that re-rounding summary
values is the identity. -/
def Grid2 (q : ℚ) : Prop := ∃ k : ℤ, q = (k : ℚ) / 100

/-! ### `/proc/stat` CPU counters (`ResourceMonitor._read_cpu_stats`) -/

/-- The eight counters `_read_cpu_stats` extracts from the `cpu` line of
`/proc/stat` (the `steal` field defaults to 0 when the line is short). -/
structure CpuStats where
  user : ℤ
  nice : ℤ
  system : ℤ
  idle : ℤ
  iowait : ℤ
  irq : ℤ
  softirq : ℤ
  steal : ℤ
deriving DecidableEq

/-- `sum(stats.values())` for a CPU stats dict. -/
def CpuStats.counterSum (s : CpuStats) : ℤ :=
  s.user + s.nice + s.system + s.idle + s.iowait + s.irq + s.softirq + s.steal

/-- Field-wise `≤` on CPU counter snapshots (all counters non-decreasing). -/
abbrev CpuLe (p c : CpuStats) : Prop :=
  p.user ≤ c.user ∧ p.nice ≤ c.nice ∧ p.system ≤ c.system ∧ p.idle ≤ c.idle ∧
  p.iowait ≤ c.iowait ∧ p.irq ≤ c.irq ∧ p.softirq ≤ c.softirq ∧ p.steal ≤ c.steal

/-- `total_delta` in `_calculate_cpu_usage`. -/
def total_delta (p c : CpuStats) : ℤ := c.counterSum - p.counterSum

/-- `idle_delta` in `_calculate_cpu_usage` (`idle + iowait` difference). -/
def idle_delta (p c : CpuStats) : ℤ := (c.idle + c.iowait) - (p.idle + p.iowait)

/-- The local `usage` in `_calculate_cpu_usage`, before rounding. -/
def cpu_usage_pct (p c : CpuStats) : ℚ :=
  100 * ((total_delta p c : ℚ) - (idle_delta p c : ℚ)) / (total_delta p c : ℚ)

/-- The local `user_pct` in `_calculate_cpu_usage`, before rounding. -/
def user_pct (p c : CpuStats) : ℚ :=
  100 * ((c.user - p.user : ℤ) : ℚ) / (total_delta p c : ℚ)

/-- The local `system_pct` in `_calculate_cpu_usage`, before rounding. -/
def system_pct (p c : CpuStats) : ℚ :=
  100 * ((c.system - p.system : ℤ) : ℚ) / (total_delta p c : ℚ)

/-- The local `iowait_pct` in `_calculate_cpu_usage`, before rounding. -/
def iowait_pct (p c : CpuStats) : ℚ :=
  100 * ((c.iowait - p.iowait : ℤ) : ℚ) / (total_delta p c : ℚ)

/-- The dict returned by `_calculate_cpu_usage`: keys
`total`, `user`, `system`, `iowait`. -/
structure CpuUsage where
  total : ℚ
  user : ℚ
  system : ℚ
  iowait : ℚ
deriving DecidableEq

/-- `ResourceMonitor._calculate_cpu_usage`: `None` when either snapshot is
missing or the total counter delta is zero, otherwise the four rounded
percentages. -/
def calculate_cpu_usage : Option CpuStats → Option CpuStats → Option CpuUsage
  | some p, some c =>
    if total_delta p c = 0 then none
    else some { total := round2 (cpu_usage_pct p c), user := round2 (user_pct p c),
                system := round2 (system_pct p c), iowait := round2 (iowait_pct p c) }
  | _, _ => none

/-! ### `/proc/diskstats` and `/proc/net/dev` (`_read_disk_stats`, `_read_network_stats`) -/

/-- The counters `_read_disk_stats` keeps for each whole-disk device. -/
structure DiskStats where
  reads_completed : ℤ
  sectors_read : ℤ
  writes_completed : ℤ
  sectors_written : ℤ
  io_time_ms : ℤ
deriving DecidableEq

/-- Field-wise `≤` on disk counters. -/
abbrev DiskLe (p c : DiskStats) : Prop :=
  p.reads_completed ≤ c.reads_completed ∧ p.sectors_read ≤ c.sectors_read ∧
  p.writes_completed ≤ c.writes_completed ∧ p.sectors_written ≤ c.sectors_written ∧
  p.io_time_ms ≤ c.io_time_ms

/-- The per-device dict built by `_calculate_disk_usage`. -/
structure DiskRates where
  read_mb_s : ℚ
  write_mb_s : ℚ
  read_iops : ℚ
  write_iops : ℚ
  total_iops : ℚ
deriving DecidableEq

/-- The per-device rate computation inside `_calculate_disk_usage`
(sectors are 512 bytes; rates divide by the sampling interval). -/
def disk_rates (interval : ℤ) (p c : DiskStats) : DiskRates :=
  let read_bytes : ℤ := (c.sectors_read - p.sectors_read) * 512
  let write_bytes : ℤ := (c.sectors_written - p.sectors_written) * 512
  let reads : ℤ := c.reads_completed - p.reads_completed
  let writes : ℤ := c.writes_completed - p.writes_completed
  { read_mb_s := round2 ((read_bytes : ℚ) / (1024 * 1024 * (interval : ℚ))),
    write_mb_s := round2 ((write_bytes : ℚ) / (1024 * 1024 * (interval : ℚ))),
    read_iops := round2 ((reads : ℚ) / (interval : ℚ)),
    write_iops := round2 ((writes : ℚ) / (interval : ℚ)),
    total_iops := round2 (((reads + writes : ℤ) : ℚ) / (interval : ℚ)) }

/-- `ResourceMonitor._calculate_disk_usage`: `None` when either snapshot dict
is empty (falsy), otherwise rates for each device present in both. -/
def calculate_disk_usage (interval : ℤ) (prev curr : List (String × DiskStats)) :
    Option (List (String × DiskRates)) :=
  if prev = [] ∨ curr = [] then none
  else some (curr.filterMap fun e =>
    match prev.lookup e.1 with
    | some p => some (e.1, disk_rates interval p e.2)
    | none => none)

/-- The counters `_read_network_stats` keeps for each non-loopback interface. -/
structure NetStats where
  rx_bytes : ℤ
  rx_packets : ℤ
  tx_bytes : ℤ
  tx_packets : ℤ
deriving DecidableEq

/-- Field-wise `≤` on network counters. -/
abbrev NetLe (p c : NetStats) : Prop :=
  p.rx_bytes ≤ c.rx_bytes ∧ p.rx_packets ≤ c.rx_packets ∧
  p.tx_bytes ≤ c.tx_bytes ∧ p.tx_packets ≤ c.tx_packets

/-- The per-interface dict built by `_calculate_network_usage`. -/
structure NetRates where
  rx_mb_s : ℚ
  tx_mb_s : ℚ
  rx_pps : ℚ
  tx_pps : ℚ
deriving DecidableEq

/-- The per-interface rate computation inside `_calculate_network_usage`. -/
def net_rates (interval : ℤ) (p c : NetStats) : NetRates :=
  let rx_bytes : ℤ := c.rx_bytes - p.rx_bytes
  let tx_bytes : ℤ := c.tx_bytes - p.tx_bytes
  let rx_packets : ℤ := c.rx_packets - p.rx_packets
  let tx_packets : ℤ := c.tx_packets - p.tx_packets
  { rx_mb_s := round3 ((rx_bytes : ℚ) / (1024 * 1024 * (interval : ℚ))),
    tx_mb_s := round3 ((tx_bytes : ℚ) / (1024 * 1024 * (interval : ℚ))),
    rx_pps := round2 ((rx_packets : ℚ) / (interval : ℚ)),
    tx_pps := round2 ((tx_packets : ℚ) / (interval : ℚ)) }

/-- `ResourceMonitor._calculate_network_usage`: `None` when either snapshot
dict is empty; among interfaces present in both, only active ones (positive
rx or tx byte delta) are reported. -/
def calculate_network_usage (interval : ℤ) (prev curr : List (String × NetStats)) :
    Option (List (String × NetRates)) :=
  if prev = [] ∨ curr = [] then none
  else some (curr.filterMap fun e =>
    match prev.lookup e.1 with
    | some p =>
      if 0 < e.2.rx_bytes - p.rx_bytes ∨ 0 < e.2.tx_bytes - p.tx_bytes then
        some (e.1, net_rates interval p e.2)
      else none
    | none => none)

/-! ### The monitor loop state (`ResourceMonitor.collect_snapshot`) -/

/-- One round of raw `/proc` reads (the cpu read is `None` when the first
line of `/proc/stat` is not the aggregate `cpu` line). -/
structure SnapshotInput where
  cpu : Option CpuStats
  disk : List (String × DiskStats)
  net : List (String × NetStats)
deriving DecidableEq

/-- One recorded metrics entry (the dict appended to `self.metrics`;
its `cpu` value always carries the four keys of `CpuUsage`). -/
structure Snapshot where
  cpu : CpuUsage
  disk : List (String × DiskRates)
  net : List (String × NetRates)
deriving DecidableEq

/-- The monitor's mutable state: the previous raw stats and the list of
recorded metrics. -/
structure MonitorState where
  prev_cpu : Option CpuStats
  prev_disk : List (String × DiskStats)
  prev_net : List (String × NetStats)
  metrics : List Snapshot
deriving DecidableEq

/-- `ResourceMonitor.collect_snapshot`: compute usages from the previous
raw stats, store the current raw stats, and append a metrics record only
when a CPU usage value was computed. -/
def collect_snapshot (interval : ℤ) (st : MonitorState) (inp : SnapshotInput) : MonitorState :=
  let cpu_usage := calculate_cpu_usage st.prev_cpu inp.cpu
  let disk_usage := calculate_disk_usage interval st.prev_disk inp.disk
  let net_usage := calculate_network_usage interval st.prev_net inp.net
  { prev_cpu := inp.cpu, prev_disk := inp.disk, prev_net := inp.net,
    metrics :=
      match cpu_usage with
      | some u => st.metrics ++ [⟨u, disk_usage.getD [], net_usage.getD []⟩]
      | none => st.metrics }

/-- The monitor run over a sequence of raw `/proc` reads, starting from the
constructor's state (`prev_cpu_stats = None`, empty dicts, no metrics). -/
def run_monitor (interval : ℤ) (inputs : List SnapshotInput) : MonitorState :=
  inputs.foldl (collect_snapshot interval) ⟨none, [], [], []⟩

/-- The metrics record produced from one consecutive pair of raw reads,
if any (`None` exactly when `_calculate_cpu_usage` returns `None`). -/
def metric_of_pair (interval : ℤ) (pq : SnapshotInput × SnapshotInput) : Option Snapshot :=
  (calculate_cpu_usage pq.1.cpu pq.2.cpu).map fun u =>
    ⟨u, (calculate_disk_usage interval pq.1.disk pq.2.disk).getD [],
        (calculate_network_usage interval pq.1.net pq.2.net).getD []⟩

/-- Consecutive pairs of a list. -/
def consecPairs {α : Type} : List α → List (α × α)
  | [] => []
  | [_] => []
  | a :: b :: rest => (a, b) :: consecPairs (b :: rest)

/-- The metrics contributed by a run of inputs starting from given
previous raw stats; mirrors the appends done by `collect_snapshot`. -/
def chain (interval : ℤ) : Option CpuStats → List (String × DiskStats) →
    List (String × NetStats) → List SnapshotInput → List Snapshot
  | _, _, _, [] => []
  | pc, pd, pn, x :: rest =>
    (match calculate_cpu_usage pc x.cpu with
     | some u => [⟨u, (calculate_disk_usage interval pd x.disk).getD [],
                     (calculate_network_usage interval pn x.net).getD []⟩]
     | none => []) ++ chain interval x.cpu x.disk x.net rest

/-! ### Summary statistics (`ResourceMonitor._calculate_summary`) -/

/-- Python `max` over a list (only applied to non-empty lists by the code;
the empty case is unreachable and given a default). -/
def pymax : List ℚ → ℚ
  | [] => 0
  | x :: xs => xs.foldl max x

/-- Python `min` over a list (only applied to non-empty lists by the code). -/
def pymin : List ℚ → ℚ
  | [] => 0
  | x :: xs => xs.foldl min x

/-- Per-record aggregate disk IOPS:
`sum(d.get('total_iops', 0) for d in m['disk'].values())`. -/
def snapshot_disk_iops (m : Snapshot) : ℚ := (m.disk.map fun e => e.2.total_iops).sum

/-- The `cpu` part of the summary dict. -/
structure CpuSummary where
  avg : ℚ
  max : ℚ
  min : ℚ
  avg_iowait : ℚ
  max_iowait : ℚ
deriving DecidableEq

/-- The `disk` part of the summary dict. -/
structure DiskSummary where
  avg_iops : ℚ
  max_iops : ℚ
  min_iops : ℚ
deriving DecidableEq

/-- The summary dict. -/
structure Summary where
  cpu : CpuSummary
  disk : DiskSummary
deriving DecidableEq

/-- `ResourceMonitor._calculate_summary`: empty dict (here `none`) when no
metrics were collected, otherwise rounded avg/max/min statistics over the
collected per-snapshot series. -/
def calculate_summary (metrics : List Snapshot) : Option Summary :=
  if metrics = [] then none
  else
    let cpu_totals := metrics.map fun m => m.cpu.total
    let cpu_iowaits := metrics.map fun m => m.cpu.iowait
    let disk_iops := metrics.map snapshot_disk_iops
    some { cpu := { avg := round2 (cpu_totals.sum / (cpu_totals.length : ℚ)),
                    max := round2 (pymax cpu_totals),
                    min := round2 (pymin cpu_totals),
                    avg_iowait := round2 (cpu_iowaits.sum / (cpu_iowaits.length : ℚ)),
                    max_iowait := round2 (pymax cpu_iowaits) },
           disk := { avg_iops := round2 (disk_iops.sum / (disk_iops.length : ℚ)),
                     max_iops := round2 (pymax disk_iops),
                     min_iops := round2 (pymin disk_iops) } }

/-- Direct arithmetic mean of a rate series (the spec's "arithmetic mean
computed directly over the per-snapshot rate series"). -/
def mean (xs : List ℚ) : ℚ := xs.sum / (xs.length : ℚ)

/-! ### stdout parsing in `run_benchmark` (run_article_benchmarks.py,
run_oracle_only_benchmarks.py)

The fixed regular expressions used by `re.search` are modelled by a
deterministic scanner that tries the pattern at every start position,
leftmost first, exactly as `re.search` does.  Greedy `\d+` followed by a
non-digit literal and the optional `s` of `attributes?` followed by a
space are both backtracking-free, so the scanner is faithful. -/

/-- `int(...)` on a captured digit string. -/
def digitsToNat (ds : List Char) : ℕ := ds.foldl (fun acc c => 10 * acc + (c.toNat - 48)) 0

/-- Match a literal character sequence at the head, returning the rest. -/
def matchLit : List Char → List Char → Option (List Char)
  | [], cs => some cs
  | _ :: _, [] => none
  | p :: ps, c :: cs => if c = p then matchLit ps cs else none

/-- Match the optional `s` of `attributes?`. -/
def stripOptS : List Char → List Char
  | 's' :: cs => cs
  | cs => cs

/-- Match `\d+` at the head (greedy), returning its value and the rest. -/
def matchDigits (cs : List Char) : Option (ℕ × List Char) :=
  let ds := cs.takeWhile Char.isDigit
  if ds.isEmpty then none else some (digitsToNat ds, cs.drop ds.length)

/-- Match ` into indexed: (\d+)ms` at the head, returning the capture. -/
def matchTimeTail (cs : List Char) : Option ℕ :=
  match matchLit " into indexed: ".toList cs with
  | none => none
  | some cs1 =>
    match matchDigits cs1 with
    | none => none
    | some (t, cs2) =>
      match matchLit "ms".toList cs2 with
      | none => none
      | some _ => some t

/-- Match the primary insert pattern at the head: the literal up to
`... in {attrs} attribute`, then `s?`, then ` into indexed: (\d+)ms`. -/
def matchInsertAt (lit : List Char) (cs : List Char) : Option ℕ :=
  match matchLit lit cs with
  | none => none
  | some cs1 => matchTimeTail (stripOptS cs1)

/-- Match the fallback insert pattern at the head: the literal up to
`... payload in `, then `\d+ attributes?`, then ` into indexed: (\d+)ms`. -/
def matchAltInsertAt (lit : List Char) (cs : List Char) : Option ℕ :=
  match matchLit lit cs with
  | none => none
  | some cs1 =>
    match matchDigits cs1 with
    | none => none
    | some (_, cs2) =>
      match matchLit " attribute".toList cs2 with
      | none => none
      | some cs3 => matchTimeTail (stripOptS cs3)

/-- `re.search`: try the pattern at each start position, leftmost first. -/
def searchScan {α : Type} (m : List Char → Option α) : List Char → Option α
  | [] => m []
  | c :: cs =>
    match m (c :: cs) with
    | some v => some v
    | none => searchScan m cs

/-- The literal part of the primary insert pattern for the requested
`num_docs`, `size` and `attrs` (f-string interpolation of the ints). -/
def primaryLit (num_docs size attrs : ℕ) : List Char :=
  ("Best time to insert " ++ toString num_docs ++ " documents with " ++ toString size ++
   "B payload in " ++ toString attrs ++ " attribute").toList

/-- The literal part of the fallback insert pattern (any attribute count). -/
def altLit (num_docs size : ℕ) : List Char :=
  ("Best time to insert " ++ toString num_docs ++ " documents with " ++ toString size ++
   "B payload in ").toList

/-- `re.search(pattern, stdout)` for the primary insert pattern. -/
def search_insert (num_docs size attrs : ℕ) (stdout : String) : Option ℕ :=
  searchScan (matchInsertAt (primaryLit num_docs size attrs)) stdout.toList

/-- `re.search(alt_pattern, stdout)` for the fallback insert pattern. -/
def search_insert_alt (num_docs size : ℕ) (stdout : String) : Option ℕ :=
  searchScan (matchAltInsertAt (altLit num_docs size)) stdout.toList

/-- The insert time `run_benchmark` ends up parsing from stdout: the
primary pattern's capture, else the fallback pattern's capture. -/
def insert_time (num_docs size attrs : ℕ) (stdout : String) : Option ℕ :=
  match search_insert num_docs size attrs stdout with
  | some t => some t
  | none => search_insert_alt num_docs size stdout

/-- Lazy `.*?: (\d+)ms` of the query pattern: at each position try
`: (\d+)ms`, else consume one non-newline character (`.` does not match
newlines). -/
def lazyTimeScan : List Char → Option ℕ
  | [] => none
  | c :: cs =>
    match (matchLit ": ".toList (c :: cs)).bind (fun cs1 =>
      (matchDigits cs1).bind fun tc =>
        (matchLit "ms".toList tc.2).map fun _ => tc.1) with
    | some t => some t
    | none => if c = '\n' then none else lazyTimeScan cs

/-- Match the query pattern
`Best query time for (\d+) ID's with {q} element link arrays.*?: (\d+)ms`
at the head, returning (queries executed, query time). -/
def matchQueryAt (q : ℕ) (cs : List Char) : Option (ℕ × ℕ) :=
  match matchLit "Best query time for ".toList cs with
  | none => none
  | some cs1 =>
    match matchDigits cs1 with
    | none => none
    | some (qn, cs2) =>
      match matchLit ((" ID".toList ++ [Char.ofNat 39] ++ "s with ".toList) ++
          (toString q).toList ++ " element link arrays".toList) cs2 with
      | none => none
      | some cs3 => (lazyTimeScan cs3).map fun t => (qn, t)

/-- `re.search(query_pattern, stdout)`. -/
def search_query (q : ℕ) (stdout : String) : Option (ℕ × ℕ) :=
  searchScan (matchQueryAt q) stdout.toList

/-! ### `run_benchmark` result records -/

/-- The exceptions arising inside the modelled `try` block. -/
inductive PyExc where
  | zeroDivision
deriving DecidableEq

/-- `str(e)` for the modelled exceptions. -/
def PyExc.str : PyExc → String
  | .zeroDivision => "float division by zero"

/-- Python true division, raising `ZeroDivisionError` on a zero divisor. -/
def pyDiv (a b : ℚ) : Except PyExc ℚ :=
  if b = 0 then .error .zeroDivision else .ok (a / b)

/-- The result dict built by `run_benchmark`; absent keys are `none`
(`query_time_ms` is doubly optional: the key may be present with value
`None`). -/
structure Response where
  success : Bool := false
  size : Option ℕ := none
  attrs : Option ℕ := none
  num_docs : Option ℕ := none
  time_ms : Option ℕ := none
  throughput : Option ℚ := none
  error : Option String := none
  query_time_ms : Option (Option ℕ) := none
  query_throughput : Option ℚ := none
  queries_executed : Option ℕ := none
  query_links : Option ℕ := none
  query_error : Option String := none
deriving DecidableEq

/-- The observable outcome of the `subprocess.run` invocation of the jar
(the command construction itself is process plumbing and is abstracted
into this outcome). -/
inductive BenchOutcome where
  | timeout
  | exc (msg : String)
  | completed (stdout : String)
deriving DecidableEq

/-- The query-test section of `run_benchmark` (run when `query_links` is
not `None`): parse the query pattern and extend the response, computing
the query throughput (a zero query time raises inside the `try`). -/
def apply_query (query_links : Option ℕ) (stdout : String) (r : Response) :
    Except PyExc Response :=
  match query_links with
  | none => .ok r
  | some q =>
    match search_query q stdout with
    | some (qn, qt) => do
      let qtp ← pyDiv (qn : ℚ) ((qt : ℚ) / 1000)
      .ok { r with query_time_ms := some (some qt), query_throughput := some (round2 qtp),
                   queries_executed := some qn, query_links := some q }
    | none => .ok { r with query_time_ms := some none,
                           query_error := some "Could not parse query results" }

/-- The body of the `try` block of `run_benchmark` in
run_article_benchmarks.py after the subprocess completed: parse stdout,
build the response (a parsed time of 0 ms raises `ZeroDivisionError` in
the throughput computation). -/
def run_benchmark_body (num_docs size attrs : ℕ) (query_links : Option ℕ)
    (stdout : String) : Except PyExc Response :=
  let base : Response := { size := some size, attrs := some attrs, num_docs := some num_docs }
  match search_insert num_docs size attrs stdout with
  | some t => do
    let tp ← pyDiv (num_docs : ℚ) ((t : ℚ) / 1000)
    apply_query query_links stdout
      { base with success := true, time_ms := some t, throughput := some (round2 tp) }
  | none =>
    match search_insert_alt num_docs size stdout with
    | some t => do
      let tp ← pyDiv (num_docs : ℚ) ((t : ℚ) / 1000)
      apply_query query_links stdout
        { base with success := true, time_ms := some t, throughput := some (round2 tp) }
    | none => .ok { success := false, error := some "Could not parse output" }

/-- `run_benchmark` of run_article_benchmarks.py: a timeout or any other
exception is caught and turned into a failure record. -/
def run_benchmark (num_docs size attrs : ℕ) (query_links : Option ℕ)
    (outcome : BenchOutcome) : Response :=
  match outcome with
  | .timeout => { success := false, error := some "Timeout" }
  | .exc msg => { success := false, error := some msg }
  | .completed stdout =>
    match run_benchmark_body num_docs size attrs query_links stdout with
    | .ok r => r
    | .error e => { success := false, error := some e.str }

/-- The body of the `try` block of `run_benchmark` in
run_oracle_only_benchmarks.py (same patterns, no query tests, success
records carry size/attrs/num_docs). -/
def run_benchmark_oracle_body (num_docs size attrs : ℕ) (stdout : String) :
    Except PyExc Response :=
  match insert_time num_docs size attrs stdout with
  | some t => do
    let tp ← pyDiv (num_docs : ℚ) ((t : ℚ) / 1000)
    .ok { success := true, time_ms := some t, throughput := some (round2 tp),
          size := some size, attrs := some attrs, num_docs := some num_docs }
  | none => .ok { success := false, error := some "Could not parse output" }

/-- `run_benchmark` of run_oracle_only_benchmarks.py. -/
def run_benchmark_oracle (num_docs size attrs : ℕ) (outcome : BenchOutcome) : Response :=
  match outcome with
  | .timeout => { success := false, error := some "Timeout" }
  | .exc msg => { success := false, error := some msg }
  | .completed stdout =>
    match run_benchmark_oracle_body num_docs size attrs stdout with
    | .ok r => r
    | .error e => { success := false, error := some e.str }

/-! ### `run_test_suite` (restart-per-test mode) -/

/-- Module-level constants of run_article_benchmarks.py. -/
def NUM_DOCS : ℕ := 10000

/-- `NUM_RUNS` constant. -/
def NUM_RUNS : ℕ := 3

/-- `BATCH_SIZE` constant. -/
def BATCH_SIZE : ℕ := 500

/-- `QUERY_LINKS` constant. -/
def QUERY_LINKS : ℕ := 10

/-- One entry of a test-configuration list. -/
structure TestCfg where
  size : ℕ
  attrs : ℕ
  desc : String
deriving DecidableEq

/-- The outcome of one (test, database) iteration of the restart-per-test
loop: either the readiness probe failed after `systemctl start`, or the
database started and the jar invocation had the given outcome. -/
inductive TestOutcome where
  | startFailure
  | started (b : BenchOutcome)
deriving DecidableEq

/-- The record appended for test `ti` on database `di`: the fixed failure
dict when the database failed to start, otherwise the `run_benchmark`
result. -/
def suite_record (tests : List TestCfg) (enable_queries : Bool)
    (out : ℕ → ℕ → TestOutcome) (ti di : ℕ) : Response :=
  match out ti di with
  | .startFailure => { success := false, error := some "Database failed to start" }
  | .started b =>
    let t := tests.getD ti ⟨0, 0, ""⟩
    run_benchmark NUM_DOCS t.size t.attrs
      (if enable_queries then some QUERY_LINKS else none) b

/-- The inner loop over databases for one test: append this test's record
to each database's results list (`results` maps a database index to its
list). -/
def suite_db_loop (dbCount : ℕ) (rec : ℕ → Response)
    (results : ℕ → List Response) : ℕ → List Response :=
  (List.range dbCount).foldl
    (fun res di => fun j => if j = di then res di ++ [rec di] else res j) results

/-- `run_test_suite` in restart-per-test mode: outer loop over tests,
inner loop over databases, every iteration appending exactly one record
(failures included) and proceeding. -/
def run_test_suite_restart (tests : List TestCfg) (dbCount : ℕ) (enable_queries : Bool)
    (out : ℕ → ℕ → TestOutcome) : ℕ → List Response :=
  (List.range tests.length).foldl
    (fun results ti => suite_db_loop dbCount (suite_record tests enable_queries out ti) results)
    (fun _ => [])

/-! ### Report JSON loaders -/

/-- Stand-in for a parsed JSON document (opaque payload). -/
structure JsonData where
  raw : String
deriving DecidableEq

/-- What opening and parsing a JSON input file can produce. -/
inductive FileRead where
  | missing
  | invalidJson
  | content (v : JsonData)
deriving DecidableEq

/-- The exceptions `open`/`json.load` can raise. -/
inductive LoadError where
  | fileNotFound
  | jsonDecodeError
deriving DecidableEq

/-- `load_json` of generate_benchmark_report.py: catches
`FileNotFoundError` and `JSONDecodeError` and returns `None`. -/
def load_json : FileRead → Except LoadError (Option JsonData)
  | .missing => .ok none
  | .invalidJson => .ok none
  | .content v => .ok (some v)

/-- `BenchmarkDataLoader.load_json` of report_modules/data_loader.py:
identical error handling, returns `None` on failure. -/
def data_loader_load_json : FileRead → Except LoadError (Option JsonData)
  | .missing => .ok none
  | .invalidJson => .ok none
  | .content v => .ok (some v)

/-- `load_results` of generate_html_report.py: no `try`/`except`, so a
missing or unparseable file propagates the exception. -/
def load_results : FileRead → Except LoadError JsonData
  | .missing => .error .fileNotFound
  | .invalidJson => .error .jsonDecodeError
  | .content v => .ok v

/-! ## Lemmas about the rounding model -/

theorem pyRound_nonneg {q : ℚ} (h : 0 ≤ q) : 0 ≤ pyRound q := by
  have hf : (0 : ℤ) ≤ ⌊q⌋ := Int.floor_nonneg.mpr h
  unfold pyRound
  split_ifs <;> omega

theorem pyRound_le {q : ℚ} {n : ℤ} (h : q ≤ (n : ℚ)) : pyRound q ≤ n := by
  have hfn : ⌊q⌋ ≤ n := by
    have h' := Int.floor_le_floor h
    rwa [Int.floor_intCast] at h'
  have hkey : ¬(q - (⌊q⌋ : ℚ) < 1/2) → ⌊q⌋ + 1 ≤ n := by
    intro h1
    have h2 : (⌊q⌋ : ℚ) + 1/2 ≤ q := by linarith [not_lt.mp h1]
    have h3 : (⌊q⌋ : ℚ) < (n : ℚ) := by linarith
    have h4 : ⌊q⌋ < n := by exact_mod_cast h3
    omega
  unfold pyRound
  split_ifs with h1 h2 h3
  · exact hfn
  · exact hkey h1
  · exact hfn
  · exact hkey h1

theorem pyRound_intCast (k : ℤ) : pyRound (k : ℚ) = k := by
  unfold pyRound
  rw [Int.floor_intCast]
  norm_num

theorem round2_nonneg {q : ℚ} (h : 0 ≤ q) : 0 ≤ round2 q := by
  have h1 : (0 : ℤ) ≤ pyRound (q * 100) := pyRound_nonneg (by positivity)
  have h2 : (0 : ℚ) ≤ (pyRound (q * 100) : ℚ) := by exact_mod_cast h1
  unfold round2
  positivity

theorem round3_nonneg {q : ℚ} (h : 0 ≤ q) : 0 ≤ round3 q := by
  have h1 : (0 : ℤ) ≤ pyRound (q * 1000) := pyRound_nonneg (by positivity)
  have h2 : (0 : ℚ) ≤ (pyRound (q * 1000) : ℚ) := by exact_mod_cast h1
  unfold round3
  positivity

theorem round2_le_100 {q : ℚ} (h : q ≤ 100) : round2 q ≤ 100 := by
  have h1 : q * 100 ≤ ((10000 : ℤ) : ℚ) := by push_cast; linarith
  have h2 : pyRound (q * 100) ≤ 10000 := pyRound_le h1
  have h3 : ((pyRound (q * 100) : ℤ) : ℚ) ≤ 10000 := by exact_mod_cast h2
  unfold round2
  rw [div_le_iff₀ (by norm_num : (0 : ℚ) < 100)]
  linarith

theorem grid2_round2 (q : ℚ) : Grid2 (round2 q) := ⟨pyRound (q * 100), rfl⟩

theorem grid2_zero : Grid2 0 := ⟨0, by norm_num⟩

theorem grid2_add {a b : ℚ} (ha : Grid2 a) (hb : Grid2 b) : Grid2 (a + b) := by
  obtain ⟨k, rfl⟩ := ha
  obtain ⟨l, rfl⟩ := hb
  exact ⟨k + l, by push_cast; ring⟩

theorem grid2_sum {l : List ℚ} (h : ∀ x ∈ l, Grid2 x) : Grid2 l.sum := by
  induction l with
  | nil => exact grid2_zero
  | cons x xs ih =>
    rw [List.sum_cons]
    exact grid2_add (h x (by simp)) (ih fun y hy => h y (by simp [hy]))

theorem round2_grid {q : ℚ} (h : Grid2 q) : round2 q = q := by
  obtain ⟨k, rfl⟩ := h
  unfold round2
  have h1 : (k : ℚ) / 100 * 100 = (k : ℚ) := by field_simp
  rw [h1, pyRound_intCast]

/-! ## Lemmas about association-list lookup -/

theorem lookup_mem {γ : Type} {l : List (String × γ)} {k : String} {v : γ}
    (h : l.lookup k = some v) : (k, v) ∈ l := by
  induction l with
  | nil => simp [List.lookup] at h
  | cons e t ih =>
    obtain ⟨k', v'⟩ := e
    by_cases hk : k = k'
    · subst hk
      simp [List.lookup] at h
      simp [h]
    · have hbeq : (k == k') = false := beq_false_of_ne hk
      rw [List.lookup, hbeq] at h
      exact List.mem_cons_of_mem _ (ih h)

/-! ## Lemmas about Python max/min folds -/

theorem foldl_max_mem (xs : List ℚ) (a : ℚ) : xs.foldl max a = a ∨ xs.foldl max a ∈ xs := by
  induction xs generalizing a with
  | nil => exact Or.inl rfl
  | cons x xs ih =>
    rw [List.foldl_cons]
    rcases ih (max a x) with h | h
    · rcases max_choice a x with hm | hm
      · exact Or.inl (h.trans hm)
      · exact Or.inr (by rw [h, hm]; exact List.mem_cons_self x xs)
    · exact Or.inr (List.mem_cons_of_mem x h)

theorem le_foldl_max (xs : List ℚ) (a : ℚ) : a ≤ xs.foldl max a := by
  induction xs generalizing a with
  | nil => exact le_refl a
  | cons x xs ih =>
    rw [List.foldl_cons]
    exact le_trans (le_max_left a x) (ih (max a x))

theorem mem_le_foldl_max (xs : List ℚ) (a y : ℚ) (hy : y ∈ xs) : y ≤ xs.foldl max a := by
  induction xs generalizing a with
  | nil => cases hy
  | cons x xs ih =>
    rw [List.foldl_cons]
    rcases List.mem_cons.mp hy with rfl | h
    · exact le_trans (le_max_right a y) (le_foldl_max xs (max a y))
    · exact ih (max a x) h

theorem pymax_mem {x : ℚ} {xs : List ℚ} : pymax (x :: xs) ∈ x :: xs := by
  show List.foldl max x xs ∈ x :: xs
  rcases foldl_max_mem xs x with h | h
  · rw [h]; exact List.mem_cons_self x xs
  · exact List.mem_cons_of_mem x h

theorem le_pymax {x y : ℚ} {xs : List ℚ} (hy : y ∈ x :: xs) : y ≤ pymax (x :: xs) := by
  show y ≤ List.foldl max x xs
  rcases List.mem_cons.mp hy with rfl | h
  · exact le_foldl_max xs y
  · exact mem_le_foldl_max xs x y h

theorem foldl_min_mem (xs : List ℚ) (a : ℚ) : xs.foldl min a = a ∨ xs.foldl min a ∈ xs := by
  induction xs generalizing a with
  | nil => exact Or.inl rfl
  | cons x xs ih =>
    rw [List.foldl_cons]
    rcases ih (min a x) with h | h
    · rcases min_choice a x with hm | hm
      · exact Or.inl (h.trans hm)
      · exact Or.inr (by rw [h, hm]; exact List.mem_cons_self x xs)
    · exact Or.inr (List.mem_cons_of_mem x h)

theorem foldl_min_le (xs : List ℚ) (a : ℚ) : xs.foldl min a ≤ a := by
  induction xs generalizing a with
  | nil => exact le_refl a
  | cons x xs ih =>
    rw [List.foldl_cons]
    exact le_trans (ih (min a x)) (min_le_left a x)

theorem foldl_min_le_mem (xs : List ℚ) (a y : ℚ) (hy : y ∈ xs) : xs.foldl min a ≤ y := by
  induction xs generalizing a with
  | nil => cases hy
  | cons x xs ih =>
    rw [List.foldl_cons]
    rcases List.mem_cons.mp hy with rfl | h
    · exact le_trans (foldl_min_le xs (min a y)) (min_le_right a y)
    · exact ih (min a x) h

theorem pymin_mem {x : ℚ} {xs : List ℚ} : pymin (x :: xs) ∈ x :: xs := by
  show List.foldl min x xs ∈ x :: xs
  rcases foldl_min_mem xs x with h | h
  · rw [h]; exact List.mem_cons_self x xs
  · exact List.mem_cons_of_mem x h

theorem pymin_le {x y : ℚ} {xs : List ℚ} (hy : y ∈ x :: xs) : pymin (x :: xs) ≤ y := by
  show List.foldl min x xs ≤ y
  rcases List.mem_cons.mp hy with rfl | h
  · exact foldl_min_le xs y
  · exact foldl_min_le_mem xs x y h

/-! ## Lemmas about the CPU percentage computation -/

theorem pct_bound {num den : ℤ} (hd : 0 < den) (h0 : 0 ≤ num) (h1 : num ≤ den) :
    0 ≤ (100 : ℚ) * (num : ℚ) / (den : ℚ) ∧ (100 : ℚ) * (num : ℚ) / (den : ℚ) ≤ 100 := by
  have hdq : (0 : ℚ) < (den : ℚ) := by exact_mod_cast hd
  have h0q : (0 : ℚ) ≤ (num : ℚ) := by exact_mod_cast h0
  have h1q : (num : ℚ) ≤ (den : ℚ) := by exact_mod_cast h1
  constructor
  · positivity
  · rw [div_le_iff₀ hdq]
    nlinarith

theorem total_delta_pos {p c : CpuStats} (hmono : CpuLe p c) (hD : total_delta p c ≠ 0) :
    0 < total_delta p c := by
  obtain ⟨h1, h2, h3, h4, h5, h6, h7, h8⟩ := hmono
  unfold total_delta CpuStats.counterSum at *
  omega

/-! ## Lemmas about the monitor loop -/

theorem foldl_collect_metrics (interval : ℤ) (inputs : List SnapshotInput) :
    ∀ st : MonitorState,
      (inputs.foldl (collect_snapshot interval) st).metrics =
        st.metrics ++ chain interval st.prev_cpu st.prev_disk st.prev_net inputs := by
  induction inputs with
  | nil => intro st; simp [chain]
  | cons x rest ih =>
    intro st
    rw [List.foldl_cons, ih]
    cases h : calculate_cpu_usage st.prev_cpu x.cpu <;>
      simp [collect_snapshot, chain, h, List.append_assoc]

theorem chain_eq_pairs (interval : ℤ) (rest : List SnapshotInput) :
    ∀ x : SnapshotInput,
      chain interval x.cpu x.disk x.net rest =
        (consecPairs (x :: rest)).filterMap (metric_of_pair interval) := by
  induction rest with
  | nil => intro x; simp [chain, consecPairs]
  | cons y rest ih =>
    intro x
    have hy := ih y
    cases h : calculate_cpu_usage x.cpu y.cpu <;>
      simp [chain, consecPairs, metric_of_pair, h, hy]

theorem run_monitor_metrics_eq (interval : ℤ) (inputs : List SnapshotInput) :
    (run_monitor interval inputs).metrics =
      (consecPairs inputs).filterMap (metric_of_pair interval) := by
  unfold run_monitor
  rw [foldl_collect_metrics]
  cases inputs with
  | nil => simp [chain, consecPairs]
  | cons x rest =>
    have hnone : calculate_cpu_usage none x.cpu = none := rfl
    simp [chain, hnone, chain_eq_pairs]

theorem grid_of_calc_cpu {a b : Option CpuStats} {u : CpuUsage}
    (h : calculate_cpu_usage a b = some u) : Grid2 u.total ∧ Grid2 u.iowait := by
  cases a with
  | none => simp [calculate_cpu_usage] at h
  | some p =>
    cases b with
    | none => simp [calculate_cpu_usage] at h
    | some c =>
      rw [calculate_cpu_usage] at h
      split at h
      · cases h
      · cases h
        exact ⟨grid2_round2 _, grid2_round2 _⟩

theorem grid_disk_entries (interval : ℤ) (pd cd : List (String × DiskStats)) :
    ∀ e ∈ (calculate_disk_usage interval pd cd).getD [], Grid2 e.2.total_iops := by
  intro e he
  cases h : calculate_disk_usage interval pd cd with
  | none => rw [h] at he; cases he
  | some res =>
    rw [h] at he
    rw [calculate_disk_usage] at h
    split at h
    · cases h
    · cases h
      obtain ⟨a, _, hfa⟩ := List.mem_filterMap.mp he
      revert hfa
      cases pd.lookup a.1 with
      | none => intro hfa; cases hfa
      | some p =>
        intro hfa
        cases hfa
        exact grid2_round2 _

theorem metrics_grid {interval : ℤ} {inputs : List SnapshotInput} {m : Snapshot}
    (hm : m ∈ (run_monitor interval inputs).metrics) :
    Grid2 m.cpu.total ∧ Grid2 m.cpu.iowait ∧ Grid2 (snapshot_disk_iops m) := by
  rw [run_monitor_metrics_eq] at hm
  obtain ⟨pq, _, hpq⟩ := List.mem_filterMap.mp hm
  rw [metric_of_pair] at hpq
  cases hc : calculate_cpu_usage pq.1.cpu pq.2.cpu with
  | none => rw [hc] at hpq; cases hpq
  | some u =>
    rw [hc] at hpq
    cases hpq
    obtain ⟨ht, hi⟩ := grid_of_calc_cpu hc
    refine ⟨ht, hi, ?_⟩
    unfold snapshot_disk_iops
    refine grid2_sum ?_
    intro x hx
    obtain ⟨e, he, rfl⟩ := List.mem_map.mp hx
    exact grid_disk_entries interval _ _ e he

/-! ## Lemmas about the benchmark runner -/

theorem apply_query_success (ql : Option ℕ) (stdout : String) (r : Response) :
    ∀ r2, apply_query ql stdout r = .ok r2 →
      r2.success = r.success ∧ r2.error = r.error ∧ r2.time_ms = r.time_ms := by
  intro r2 h
  cases ql with
  | none => cases h; exact ⟨rfl, rfl, rfl⟩
  | some q =>
    rw [apply_query] at h
    revert h
    cases search_query q stdout with
    | none => intro h; cases h; exact ⟨rfl, rfl, rfl⟩
    | some p =>
      obtain ⟨qn, qt⟩ := p
      simp only [pyDiv]
      split
      · intro h; cases h
      · intro h; cases h; exact ⟨rfl, rfl, rfl⟩

theorem run_benchmark_failure_has_error (n s a : ℕ) (ql : Option ℕ) (outcome : BenchOutcome) :
    (run_benchmark n s a ql outcome).success = false →
      ((run_benchmark n s a ql outcome).error).isSome := by
  cases outcome with
  | timeout => intro _; rfl
  | exc msg => intro _; rfl
  | completed stdout =>
    rw [run_benchmark]
    cases hb : run_benchmark_body n s a ql stdout with
    | error e => intro _; rfl
    | ok r =>
      intro hs
      rw [run_benchmark_body] at hb
      revert hb
      cases search_insert n s a stdout with
      | some t =>
        simp only [pyDiv]
        split
        · intro hb; cases hb
        · simp only [bind, Except.bind]
          intro hb
          obtain ⟨h1, h2, _⟩ := apply_query_success ql stdout _ r hb
          rw [hs] at h1
          cases h1
      | none =>
        cases search_insert_alt n s stdout with
        | some t =>
          simp only [pyDiv]
          split
          · intro hb; cases hb
          · simp only [bind, Except.bind]
            intro hb
            obtain ⟨h1, h2, _⟩ := apply_query_success ql stdout _ r hb
            rw [hs] at h1
            cases h1
        | none =>
          intro hb
          cases hb
          rfl

/-! ## Lemmas about the restart-per-test suite loop -/

theorem suite_db_loop_lt {dbCount : ℕ} (rec : ℕ → Response)
    (results : ℕ → List Response) {di : ℕ} (hdi : di < dbCount) :
    suite_db_loop dbCount rec results di = results di ++ [rec di] := by
  induction dbCount with
  | zero => cases hdi
  | succ n ih =>
    unfold suite_db_loop at *
    rw [List.range_succ, List.foldl_append, List.foldl_cons, List.foldl_nil]
    rcases Nat.lt_succ_iff_lt_or_eq.mp hdi with h | rfl
    · rw [if_neg (Nat.ne_of_lt h), ih h]
    · rw [if_pos rfl]
      congr 1
      · -- the fold over the first `di` indices leaves index `di` unchanged
        clear hdi
        have : ∀ m, di ≥ m → (List.range m).foldl
            (fun res di2 => fun j => if j = di2 then res di2 ++ [rec di2] else res j)
            results di = results di := by
          intro m
          induction m with
          | zero => intro _; rfl
          | succ k ihk =>
            intro hk
            rw [List.range_succ, List.foldl_append, List.foldl_cons, List.foldl_nil]
            rw [if_neg (by omega), ihk (by omega)]
        exact this di (le_refl di)

theorem suite_foldl_tests (tests : List TestCfg) (dbCount : ℕ) (enable_queries : Bool)
    (out : ℕ → ℕ → TestOutcome) (tis : List ℕ) :
    ∀ (results : ℕ → List Response) (di : ℕ), di < dbCount →
      (tis.foldl
        (fun results ti => suite_db_loop dbCount (suite_record tests enable_queries out ti) results)
        results) di =
      results di ++ tis.map (fun ti => suite_record tests enable_queries out ti di) := by
  induction tis with
  | nil => intro results di _; simp
  | cons ti tis ih =>
    intro results di hdi
    rw [List.foldl_cons, ih _ di hdi, suite_db_loop_lt _ _ hdi]
    simp

/-! ## Claim theorems -/

/-- C1, counterexample: the claim "user, system and iowait percentages sum
to at most the total usage percentage" is false.  When only the iowait
counter advances (here by 5 ticks), `_calculate_cpu_usage` reports
`total = 0` (iowait counts as idle time there) but `iowait = 100`, so the
component sum 0 + 0 + 100 exceeds the total 0. -/
theorem C1_sum_exceeds_total_counterexample :
    calculate_cpu_usage (some ⟨0, 0, 0, 0, 0, 0, 0, 0⟩) (some ⟨0, 0, 0, 0, 5, 0, 0, 0⟩) =
      some ⟨0, 0, 0, 100⟩ ∧
    ¬ ((0 : ℚ) + 0 + 100 ≤ 0) := by
  constructor
  · rw [calculate_cpu_usage, if_neg (by decide)]
    norm_num [cpu_usage_pct, user_pct, system_pct, iowait_pct, total_delta, idle_delta,
      CpuStats.counterSum, round2, pyRound]
  · norm_num

/-- C1, amended: with every counter non-decreasing and a nonzero total
delta, the pre-rounding `user_pct` and `system_pct` sum to at most the
pre-rounding total `usage`; `iowait_pct` must be excluded because iowait
time is counted as idle time when computing the total. -/
theorem C1_user_system_le_total (p c : CpuStats) (hmono : CpuLe p c)
    (hD : total_delta p c ≠ 0) :
    user_pct p c + system_pct p c ≤ cpu_usage_pct p c := by
  have hDpos := total_delta_pos hmono hD
  have hDq : (0 : ℚ) < ((total_delta p c : ℤ) : ℚ) := by exact_mod_cast hDpos
  obtain ⟨h1, h2, h3, h4, h5, h6, h7, h8⟩ := hmono
  have key : 100 * ((c.user - p.user : ℤ) : ℚ) + 100 * ((c.system - p.system : ℤ) : ℚ) ≤
      100 * ((total_delta p c : ℚ) - (idle_delta p c : ℚ)) := by
    unfold total_delta idle_delta CpuStats.counterSum
    push_cast
    have h2q : (p.nice : ℚ) ≤ (c.nice : ℚ) := by exact_mod_cast h2
    have h6q : (p.irq : ℚ) ≤ (c.irq : ℚ) := by exact_mod_cast h6
    have h7q : (p.softirq : ℚ) ≤ (c.softirq : ℚ) := by exact_mod_cast h7
    have h8q : (p.steal : ℚ) ≤ (c.steal : ℚ) := by exact_mod_cast h8
    linarith
  unfold user_pct system_pct cpu_usage_pct
  rw [div_add_div_same, div_le_div_iff hDq hDq]
  nlinarith [key, hDq]

/-- C1 amended, witness at a concrete input (only the user counter
advances). -/
theorem C1_user_system_le_total_witness :
    CpuLe ⟨0, 0, 0, 0, 0, 0, 0, 0⟩ ⟨1, 0, 0, 0, 0, 0, 0, 0⟩ ∧
    total_delta ⟨0, 0, 0, 0, 0, 0, 0, 0⟩ ⟨1, 0, 0, 0, 0, 0, 0, 0⟩ ≠ 0 ∧
    user_pct ⟨0, 0, 0, 0, 0, 0, 0, 0⟩ ⟨1, 0, 0, 0, 0, 0, 0, 0⟩ +
      system_pct ⟨0, 0, 0, 0, 0, 0, 0, 0⟩ ⟨1, 0, 0, 0, 0, 0, 0, 0⟩ ≤
      cpu_usage_pct ⟨0, 0, 0, 0, 0, 0, 0, 0⟩ ⟨1, 0, 0, 0, 0, 0, 0, 0⟩ :=
  ⟨by decide, by decide, C1_user_system_le_total _ _ (by decide) (by decide)⟩

/-- C2: when every per-field counter is non-decreasing and the total
counter delta is nonzero, `_calculate_cpu_usage` produces a result and
each of its total, user, system and iowait percentages lies in [0, 100]. -/
theorem C2_cpu_percentages_in_range (p c : CpuStats) (hmono : CpuLe p c)
    (hD : total_delta p c ≠ 0) :
    ∃ u, calculate_cpu_usage (some p) (some c) = some u ∧
      0 ≤ u.total ∧ u.total ≤ 100 ∧ 0 ≤ u.user ∧ u.user ≤ 100 ∧
      0 ≤ u.system ∧ u.system ≤ 100 ∧ 0 ≤ u.iowait ∧ u.iowait ≤ 100 := by
  have hDpos := total_delta_pos hmono hD
  obtain ⟨h1, h2, h3, h4, h5, h6, h7, h8⟩ := hmono
  have huser := pct_bound hDpos
    (show 0 ≤ c.user - p.user by omega)
    (show c.user - p.user ≤ total_delta p c by
      unfold total_delta CpuStats.counterSum; omega)
  have hsystem := pct_bound hDpos
    (show 0 ≤ c.system - p.system by omega)
    (show c.system - p.system ≤ total_delta p c by
      unfold total_delta CpuStats.counterSum; omega)
  have hiowait := pct_bound hDpos
    (show 0 ≤ c.iowait - p.iowait by omega)
    (show c.iowait - p.iowait ≤ total_delta p c by
      unfold total_delta CpuStats.counterSum; omega)
  have htotal := pct_bound hDpos
    (show 0 ≤ total_delta p c - idle_delta p c by
      unfold total_delta idle_delta CpuStats.counterSum; omega)
    (show total_delta p c - idle_delta p c ≤ total_delta p c by
      unfold idle_delta; omega)
  have hcast : (cpu_usage_pct p c) =
      100 * ((total_delta p c - idle_delta p c : ℤ) : ℚ) / ((total_delta p c : ℤ) : ℚ) := by
    unfold cpu_usage_pct
    push_cast
    ring
  refine ⟨_, by rw [calculate_cpu_usage, if_neg hD], ?_, ?_, ?_, ?_, ?_, ?_, ?_, ?_⟩
  · exact round2_nonneg (by rw [hcast]; exact htotal.1)
  · exact round2_le_100 (by rw [hcast]; exact htotal.2)
  · exact round2_nonneg huser.1
  · exact round2_le_100 huser.2
  · exact round2_nonneg hsystem.1
  · exact round2_le_100 hsystem.2
  · exact round2_nonneg hiowait.1
  · exact round2_le_100 hiowait.2

/-- C2, witness at a concrete input. -/
theorem C2_cpu_percentages_in_range_witness :
    CpuLe ⟨0, 0, 0, 0, 0, 0, 0, 0⟩ ⟨1, 0, 0, 3, 0, 0, 0, 0⟩ ∧
    total_delta ⟨0, 0, 0, 0, 0, 0, 0, 0⟩ ⟨1, 0, 0, 3, 0, 0, 0, 0⟩ ≠ 0 ∧
    ∃ u, calculate_cpu_usage (some ⟨0, 0, 0, 0, 0, 0, 0, 0⟩) (some ⟨1, 0, 0, 3, 0, 0, 0, 0⟩) = some u ∧
      0 ≤ u.total ∧ u.total ≤ 100 ∧ 0 ≤ u.user ∧ u.user ≤ 100 ∧
      0 ≤ u.system ∧ u.system ≤ 100 ∧ 0 ≤ u.iowait ∧ u.iowait ≤ 100 :=
  ⟨by decide, by decide, C2_cpu_percentages_in_range _ _ (by decide) (by decide)⟩

/-- C3: with non-decreasing counters for every device/interface present in
both snapshots and a positive interval, every rate reported by
`_calculate_disk_usage` and `_calculate_network_usage` is non-negative. -/
theorem C3_rates_nonneg (interval : ℤ) (hI : 0 < interval)
    (dprev dcurr : List (String × DiskStats)) (nprev ncurr : List (String × NetStats))
    (hd : ∀ e ∈ dcurr, ∀ e2 ∈ dprev, e2.1 = e.1 → DiskLe e2.2 e.2)
    (hn : ∀ e ∈ ncurr, ∀ e2 ∈ nprev, e2.1 = e.1 → NetLe e2.2 e.2) :
    (∀ res, calculate_disk_usage interval dprev dcurr = some res →
      ∀ e ∈ res, 0 ≤ e.2.read_mb_s ∧ 0 ≤ e.2.write_mb_s ∧ 0 ≤ e.2.read_iops ∧
        0 ≤ e.2.write_iops ∧ 0 ≤ e.2.total_iops) ∧
    (∀ res, calculate_network_usage interval nprev ncurr = some res →
      ∀ e ∈ res, 0 ≤ e.2.rx_mb_s ∧ 0 ≤ e.2.tx_mb_s ∧ 0 ≤ e.2.rx_pps ∧ 0 ≤ e.2.tx_pps) := by
  have hIq : (0 : ℚ) < (interval : ℚ) := by exact_mod_cast hI
  have hden : (0 : ℚ) < 1024 * 1024 * (interval : ℚ) := by
    have : (0 : ℚ) < 1024 * 1024 := by norm_num
    exact mul_pos this hIq
  constructor
  · intro res hres e he
    rw [calculate_disk_usage] at hres
    split at hres
    · cases hres
    · cases hres
      obtain ⟨a, ha, hfa⟩ := List.mem_filterMap.mp he
      revert hfa
      cases hl : dprev.lookup a.1 with
      | none => intro hfa; cases hfa
      | some p =>
        intro hfa
        cases hfa
        have hg : DiskLe p a.2 := hd a ha (a.1, p) (lookup_mem hl) rfl
        obtain ⟨g1, g2, g3, g4, g5⟩ := hg
        simp only [disk_rates]
        have hsr : (0 : ℚ) ≤ (((a.2.sectors_read - p.sectors_read) * 512 : ℤ) : ℚ) := by
          exact_mod_cast mul_nonneg (by omega) (by norm_num : (0 : ℤ) ≤ 512)
        have hsw : (0 : ℚ) ≤ (((a.2.sectors_written - p.sectors_written) * 512 : ℤ) : ℚ) := by
          exact_mod_cast mul_nonneg (by omega) (by norm_num : (0 : ℤ) ≤ 512)
        have hr : (0 : ℚ) ≤ ((a.2.reads_completed - p.reads_completed : ℤ) : ℚ) := by
          exact_mod_cast (by omega : (0 : ℤ) ≤ a.2.reads_completed - p.reads_completed)
        have hw : (0 : ℚ) ≤ ((a.2.writes_completed - p.writes_completed : ℤ) : ℚ) := by
          exact_mod_cast (by omega : (0 : ℤ) ≤ a.2.writes_completed - p.writes_completed)
        have hrw : (0 : ℚ) ≤
            ((a.2.reads_completed - p.reads_completed +
              (a.2.writes_completed - p.writes_completed) : ℤ) : ℚ) := by
          exact_mod_cast (by omega : (0 : ℤ) ≤ a.2.reads_completed - p.reads_completed +
            (a.2.writes_completed - p.writes_completed))
        exact ⟨round2_nonneg (div_nonneg hsr hden.le),
               round2_nonneg (div_nonneg hsw hden.le),
               round2_nonneg (div_nonneg hr hIq.le),
               round2_nonneg (div_nonneg hw hIq.le),
               round2_nonneg (div_nonneg hrw hIq.le)⟩
  · intro res hres e he
    rw [calculate_network_usage] at hres
    split at hres
    · cases hres
    · cases hres
      obtain ⟨a, ha, hfa⟩ := List.mem_filterMap.mp he
      revert hfa
      cases hl : nprev.lookup a.1 with
      | none => intro hfa; cases hfa
      | some p =>
        intro hfa
        simp only [Option.ite_none_right_eq_some, Option.some.injEq] at hfa
        obtain ⟨-, rfl⟩ := hfa
        have hg : NetLe p a.2 := hn a ha (a.1, p) (lookup_mem hl) rfl
        obtain ⟨g1, g2, g3, g4⟩ := hg
        simp only [net_rates]
        have hrx : (0 : ℚ) ≤ ((a.2.rx_bytes - p.rx_bytes : ℤ) : ℚ) := by
          exact_mod_cast (by omega : (0 : ℤ) ≤ a.2.rx_bytes - p.rx_bytes)
        have htx : (0 : ℚ) ≤ ((a.2.tx_bytes - p.tx_bytes : ℤ) : ℚ) := by
          exact_mod_cast (by omega : (0 : ℤ) ≤ a.2.tx_bytes - p.tx_bytes)
        have hrp : (0 : ℚ) ≤ ((a.2.rx_packets - p.rx_packets : ℤ) : ℚ) := by
          exact_mod_cast (by omega : (0 : ℤ) ≤ a.2.rx_packets - p.rx_packets)
        have htp : (0 : ℚ) ≤ ((a.2.tx_packets - p.tx_packets : ℤ) : ℚ) := by
          exact_mod_cast (by omega : (0 : ℤ) ≤ a.2.tx_packets - p.tx_packets)
        exact ⟨round3_nonneg (div_nonneg hrx hden.le),
               round3_nonneg (div_nonneg htx hden.le),
               round2_nonneg (div_nonneg hrp hIq.le),
               round2_nonneg (div_nonneg htp hIq.le)⟩

/-- C3, witness at a concrete input. -/
theorem C3_rates_nonneg_witness :
    (0 : ℤ) < 5 ∧
    (∀ res, calculate_disk_usage 5 [("sda", ⟨0, 0, 0, 0, 0⟩)] [("sda", ⟨1, 2, 3, 4, 5⟩)] = some res →
      ∀ e ∈ res, 0 ≤ e.2.read_mb_s ∧ 0 ≤ e.2.write_mb_s ∧ 0 ≤ e.2.read_iops ∧
        0 ≤ e.2.write_iops ∧ 0 ≤ e.2.total_iops) ∧
    (∀ res, calculate_network_usage 5 [("eth0", ⟨0, 0, 0, 0⟩)] [("eth0", ⟨1, 1, 1, 1⟩)] = some res →
      ∀ e ∈ res, 0 ≤ e.2.rx_mb_s ∧ 0 ≤ e.2.tx_mb_s ∧ 0 ≤ e.2.rx_pps ∧ 0 ≤ e.2.tx_pps) :=
  ⟨by decide,
   (C3_rates_nonneg 5 (by decide) [("sda", ⟨0, 0, 0, 0, 0⟩)] [("sda", ⟨1, 2, 3, 4, 5⟩)]
      [("eth0", ⟨0, 0, 0, 0⟩)] [("eth0", ⟨1, 1, 1, 1⟩)] (by decide) (by decide)).1,
   (C3_rates_nonneg 5 (by decide) [("sda", ⟨0, 0, 0, 0, 0⟩)] [("sda", ⟨1, 2, 3, 4, 5⟩)]
      [("eth0", ⟨0, 0, 0, 0⟩)] [("eth0", ⟨1, 1, 1, 1⟩)] (by decide) (by decide)).2⟩

/-- C5: for two disk snapshots with a `sectors_written` delta of 10240 and
all other counters unchanged, at interval 5, `_calculate_disk_usage`
reports `write_mb_s = 10240*512/(1024*1024*5) = 1.0` for that device. -/
theorem C5_write_rate_example :
    calculate_disk_usage 5 [("sda", ⟨0, 0, 0, 0, 0⟩)] [("sda", ⟨0, 0, 0, 10240, 0⟩)] =
      some [("sda", ⟨0, 1, 0, 0, 0⟩)] ∧
    (10240 * 512 : ℚ) / (1024 * 1024 * 5) = 1 := by
  constructor
  · rw [calculate_disk_usage, if_neg (by decide)]
    norm_num [List.filterMap, List.lookup, disk_rates, round2, pyRound]
  · norm_num

/-! ## Summary characterization (supporting C4) -/

theorem pymax_round2_spec (x : ℚ) (xs : List ℚ) (hgrd : ∀ y ∈ x :: xs, Grid2 y) :
    round2 (pymax (x :: xs)) ∈ x :: xs ∧ ∀ y ∈ x :: xs, y ≤ round2 (pymax (x :: xs)) := by
  rw [round2_grid (hgrd _ pymax_mem)]
  exact ⟨pymax_mem, fun y hy => le_pymax hy⟩

theorem pymin_round2_spec (x : ℚ) (xs : List ℚ) (hgrd : ∀ y ∈ x :: xs, Grid2 y) :
    round2 (pymin (x :: xs)) ∈ x :: xs ∧ ∀ y ∈ x :: xs, round2 (pymin (x :: xs)) ≤ y := by
  rw [round2_grid (hgrd _ pymin_mem)]
  exact ⟨pymin_mem, fun y hy => pymin_le hy⟩

theorem summary_spec (ms : List Snapshot) (hne : ms ≠ [])
    (hg : ∀ m ∈ ms, Grid2 m.cpu.total ∧ Grid2 m.cpu.iowait ∧ Grid2 (snapshot_disk_iops m)) :
    ∃ S, calculate_summary ms = some S ∧
      S.cpu.avg = round2 (mean (ms.map fun m => m.cpu.total)) ∧
      S.cpu.max ∈ ms.map (fun m => m.cpu.total) ∧
      (∀ y ∈ ms.map (fun m => m.cpu.total), y ≤ S.cpu.max) ∧
      S.cpu.min ∈ ms.map (fun m => m.cpu.total) ∧
      (∀ y ∈ ms.map (fun m => m.cpu.total), S.cpu.min ≤ y) ∧
      S.cpu.avg_iowait = round2 (mean (ms.map fun m => m.cpu.iowait)) ∧
      S.cpu.max_iowait ∈ ms.map (fun m => m.cpu.iowait) ∧
      (∀ y ∈ ms.map (fun m => m.cpu.iowait), y ≤ S.cpu.max_iowait) ∧
      S.disk.avg_iops = round2 (mean (ms.map snapshot_disk_iops)) ∧
      S.disk.max_iops ∈ ms.map snapshot_disk_iops ∧
      (∀ y ∈ ms.map snapshot_disk_iops, y ≤ S.disk.max_iops) ∧
      S.disk.min_iops ∈ ms.map snapshot_disk_iops ∧
      (∀ y ∈ ms.map snapshot_disk_iops, S.disk.min_iops ≤ y) := by
  obtain ⟨m0, tl, rfl⟩ := List.exists_cons_of_ne_nil hne
  have hgt : ∀ y ∈ m0.cpu.total :: tl.map (fun m => m.cpu.total), Grid2 y := by
    intro y hy
    rcases List.mem_cons.mp hy with rfl | hy2
    · exact (hg m0 (List.mem_cons_self _ _)).1
    · obtain ⟨m, hm, rfl⟩ := List.mem_map.mp hy2
      exact (hg m (List.mem_cons_of_mem _ hm)).1
  have hgi : ∀ y ∈ m0.cpu.iowait :: tl.map (fun m => m.cpu.iowait), Grid2 y := by
    intro y hy
    rcases List.mem_cons.mp hy with rfl | hy2
    · exact (hg m0 (List.mem_cons_self _ _)).2.1
    · obtain ⟨m, hm, rfl⟩ := List.mem_map.mp hy2
      exact (hg m (List.mem_cons_of_mem _ hm)).2.1
  have hgd : ∀ y ∈ snapshot_disk_iops m0 :: tl.map snapshot_disk_iops, Grid2 y := by
    intro y hy
    rcases List.mem_cons.mp hy with rfl | hy2
    · exact (hg m0 (List.mem_cons_self _ _)).2.2
    · obtain ⟨m, hm, rfl⟩ := List.mem_map.mp hy2
      exact (hg m (List.mem_cons_of_mem _ hm)).2.2
  have hmaxt := pymax_round2_spec _ _ hgt
  have hmint := pymin_round2_spec _ _ hgt
  have hmaxi := pymax_round2_spec _ _ hgi
  have hmaxd := pymax_round2_spec _ _ hgd
  have hmind := pymin_round2_spec _ _ hgd
  cases hS : calculate_summary (m0 :: tl) with
  | none =>
    rw [calculate_summary, if_neg hne] at hS
    cases hS
  | some S =>
    rw [calculate_summary, if_neg hne] at hS
    cases hS
    exact ⟨_, rfl, rfl, hmaxt.1, hmaxt.2, hmint.1, hmint.2, rfl, hmaxi.1, hmaxi.2,
           rfl, hmaxd.1, hmaxd.2, hmind.1, hmind.2⟩

/-! ## C4, C9 -/

/-- C4, counterexample: the summary `avg` does not equal the exact
arithmetic mean of the recorded rate series.  With two recorded snapshots
whose cpu totals are 0.01 and 0.02, the mean is 0.015 but
`_calculate_summary` reports `round(0.015, 2) = 0.02`. -/
theorem C4_avg_rounds_mean_counterexample :
    (calculate_summary (run_monitor 5
      [⟨some ⟨0, 0, 0, 0, 0, 0, 0, 0⟩, [], []⟩,
       ⟨some ⟨1, 0, 0, 9999, 0, 0, 0, 0⟩, [], []⟩,
       ⟨some ⟨3, 0, 0, 19997, 0, 0, 0, 0⟩, [], []⟩]).metrics).map (fun S => S.cpu.avg) =
      some (1/50) ∧
    mean ((run_monitor 5
      [⟨some ⟨0, 0, 0, 0, 0, 0, 0, 0⟩, [], []⟩,
       ⟨some ⟨1, 0, 0, 9999, 0, 0, 0, 0⟩, [], []⟩,
       ⟨some ⟨3, 0, 0, 19997, 0, 0, 0, 0⟩, [], []⟩]).metrics.map fun m => m.cpu.total) =
      3/200 ∧
    (1/50 : ℚ) ≠ 3/200 := by
  have h1 : calculate_cpu_usage (some ⟨0, 0, 0, 0, 0, 0, 0, 0⟩)
      (some ⟨1, 0, 0, 9999, 0, 0, 0, 0⟩) = some ⟨1/100, 1/100, 0, 0⟩ := by
    rw [calculate_cpu_usage, if_neg (by decide)]
    norm_num [cpu_usage_pct, user_pct, system_pct, iowait_pct, total_delta, idle_delta,
      CpuStats.counterSum, round2, pyRound]
  have h2 : calculate_cpu_usage (some ⟨1, 0, 0, 9999, 0, 0, 0, 0⟩)
      (some ⟨3, 0, 0, 19997, 0, 0, 0, 0⟩) = some ⟨1/50, 1/50, 0, 0⟩ := by
    rw [calculate_cpu_usage, if_neg (by decide)]
    norm_num [cpu_usage_pct, user_pct, system_pct, iowait_pct, total_delta, idle_delta,
      CpuStats.counterSum, round2, pyRound]
  have hm : (run_monitor 5
      [⟨some ⟨0, 0, 0, 0, 0, 0, 0, 0⟩, [], []⟩,
       ⟨some ⟨1, 0, 0, 9999, 0, 0, 0, 0⟩, [], []⟩,
       ⟨some ⟨3, 0, 0, 19997, 0, 0, 0, 0⟩, [], []⟩]).metrics =
      [⟨⟨1/100, 1/100, 0, 0⟩, [], []⟩, ⟨⟨1/50, 1/50, 0, 0⟩, [], []⟩] := by
    rw [run_monitor_metrics_eq]
    simp [consecPairs, metric_of_pair, h1, h2, calculate_disk_usage, calculate_network_usage]
  rw [hm]
  refine ⟨?_, ?_, by norm_num⟩
  · rw [calculate_summary, if_neg (by simp)]
    simp only [Option.map_some']
    norm_num [pymax, pymin, snapshot_disk_iops, mean, round2, pyRound]
  · norm_num [mean]

/-- C4, amended: for every monitor run with at least one recorded metric,
the summary matches direct arithmetic over the recorded per-snapshot rate
series up to the final 2-decimal rounding: `avg` fields equal the rounded
arithmetic mean, and `max`/`min` fields equal the exact maximum/minimum
of the series (their rounding is the identity because every recorded rate
is already a 2-decimal value). -/
theorem C4_summary_matches_series (interval : ℤ) (inputs : List SnapshotInput)
    (h : (run_monitor interval inputs).metrics ≠ []) :
    ∃ S, calculate_summary ((run_monitor interval inputs).metrics) = some S ∧
      S.cpu.avg = round2 (mean ((run_monitor interval inputs).metrics.map fun m => m.cpu.total)) ∧
      S.cpu.max ∈ (run_monitor interval inputs).metrics.map (fun m => m.cpu.total) ∧
      (∀ y ∈ (run_monitor interval inputs).metrics.map (fun m => m.cpu.total), y ≤ S.cpu.max) ∧
      S.cpu.min ∈ (run_monitor interval inputs).metrics.map (fun m => m.cpu.total) ∧
      (∀ y ∈ (run_monitor interval inputs).metrics.map (fun m => m.cpu.total), S.cpu.min ≤ y) ∧
      S.cpu.avg_iowait =
        round2 (mean ((run_monitor interval inputs).metrics.map fun m => m.cpu.iowait)) ∧
      S.cpu.max_iowait ∈ (run_monitor interval inputs).metrics.map (fun m => m.cpu.iowait) ∧
      (∀ y ∈ (run_monitor interval inputs).metrics.map (fun m => m.cpu.iowait),
        y ≤ S.cpu.max_iowait) ∧
      S.disk.avg_iops =
        round2 (mean ((run_monitor interval inputs).metrics.map snapshot_disk_iops)) ∧
      S.disk.max_iops ∈ (run_monitor interval inputs).metrics.map snapshot_disk_iops ∧
      (∀ y ∈ (run_monitor interval inputs).metrics.map snapshot_disk_iops,
        y ≤ S.disk.max_iops) ∧
      S.disk.min_iops ∈ (run_monitor interval inputs).metrics.map snapshot_disk_iops ∧
      (∀ y ∈ (run_monitor interval inputs).metrics.map snapshot_disk_iops,
        S.disk.min_iops ≤ y) :=
  summary_spec _ h (fun _ hm => metrics_grid hm)

/-- C4 amended, witness at a concrete two-sample run. -/
theorem C4_summary_matches_series_witness :
    (run_monitor 5 [⟨some ⟨0, 0, 0, 0, 0, 0, 0, 0⟩, [], []⟩,
       ⟨some ⟨1, 0, 0, 9999, 0, 0, 0, 0⟩, [], []⟩]).metrics ≠ [] ∧
    ∃ S, calculate_summary ((run_monitor 5 [⟨some ⟨0, 0, 0, 0, 0, 0, 0, 0⟩, [], []⟩,
        ⟨some ⟨1, 0, 0, 9999, 0, 0, 0, 0⟩, [], []⟩]).metrics) = some S ∧
      S.cpu.avg = round2 (mean ((run_monitor 5 [⟨some ⟨0, 0, 0, 0, 0, 0, 0, 0⟩, [], []⟩,
        ⟨some ⟨1, 0, 0, 9999, 0, 0, 0, 0⟩, [], []⟩]).metrics.map fun m => m.cpu.total)) := by
  have hne : (run_monitor 5 [⟨some ⟨0, 0, 0, 0, 0, 0, 0, 0⟩, [], []⟩,
      ⟨some ⟨1, 0, 0, 9999, 0, 0, 0, 0⟩, [], []⟩]).metrics ≠ [] := by
    rw [run_monitor_metrics_eq]
    simp [consecPairs, metric_of_pair, calculate_cpu_usage, total_delta, CpuStats.counterSum]
  refine ⟨hne, ?_⟩
  obtain ⟨S, hS, havg, -⟩ := C4_summary_matches_series 5 _ hne
  exact ⟨S, hS, havg⟩

/-- C9 (implicit): `collect_snapshot` appends a metric record exactly when
`_calculate_cpu_usage` returns a value, i.e. the recorded metrics of a run
are exactly the computed records of the consecutive snapshot pairs; in
particular a run over a single raw read (the first sample after startup)
records nothing.  Every record's `cpu` value is a `CpuUsage`, which
carries all four keys `total`, `user`, `system`, `iowait` by
construction. -/
theorem C9_metrics_are_pair_records (interval : ℤ) :
    (∀ inputs : List SnapshotInput,
      (run_monitor interval inputs).metrics =
        (consecPairs inputs).filterMap (metric_of_pair interval)) ∧
    (∀ x : SnapshotInput, (run_monitor interval [x]).metrics = []) := by
  refine ⟨run_monitor_metrics_eq interval, fun x => ?_⟩
  rw [run_monitor_metrics_eq]
  rfl

/-! ## C6 -/

/-- C6, counterexample: not every report generator's JSON loader returns
`None` on a missing file — `load_results` of generate_html_report.py has
no error handling and propagates `FileNotFoundError` (while `load_json`
of generate_benchmark_report.py does return `None`). -/
theorem C6_load_results_propagates_counterexample :
    load_results FileRead.missing = Except.error LoadError.fileNotFound ∧
    load_json FileRead.missing = Except.ok none := ⟨rfl, rfl⟩

/-- C6, amended: `load_json` of generate_benchmark_report.py and
`BenchmarkDataLoader.load_json` of report_modules/data_loader.py catch
missing/unparseable files and return `None`; `load_results` of
generate_html_report.py propagates the exception instead. -/
theorem C6_loaders_amended :
    (load_json FileRead.missing = Except.ok none ∧
     load_json FileRead.invalidJson = Except.ok none ∧
     ∀ v, load_json (FileRead.content v) = Except.ok (some v)) ∧
    (data_loader_load_json FileRead.missing = Except.ok none ∧
     data_loader_load_json FileRead.invalidJson = Except.ok none ∧
     ∀ v, data_loader_load_json (FileRead.content v) = Except.ok (some v)) ∧
    (load_results FileRead.missing = Except.error LoadError.fileNotFound ∧
     load_results FileRead.invalidJson = Except.error LoadError.jsonDecodeError) :=
  ⟨⟨rfl, rfl, fun _ => rfl⟩, ⟨rfl, rfl, fun _ => rfl⟩, rfl, rfl⟩

/-! ## C7 -/

/-- C7: in restart-per-test mode, every database's results list gets
exactly one record per test configuration, each record being determined by
that single (test, database) outcome — a start failure or the
`run_benchmark` result, with no retry and no abort — and every failed
record carries an `error` field. -/
theorem C7_suite_records_every_outcome (tests : List TestCfg) (dbCount : ℕ)
    (enable_queries : Bool) (out : ℕ → ℕ → TestOutcome) (di : ℕ) (hdi : di < dbCount) :
    run_test_suite_restart tests dbCount enable_queries out di =
      (List.range tests.length).map (fun ti => suite_record tests enable_queries out ti di) ∧
    (run_test_suite_restart tests dbCount enable_queries out di).length = tests.length ∧
    ∀ r ∈ run_test_suite_restart tests dbCount enable_queries out di,
      r.success = false → r.error.isSome := by
  have hmain : run_test_suite_restart tests dbCount enable_queries out di =
      (List.range tests.length).map (fun ti => suite_record tests enable_queries out ti di) := by
    unfold run_test_suite_restart
    rw [suite_foldl_tests tests dbCount enable_queries out (List.range tests.length) _ di hdi]
    simp
  refine ⟨hmain, by rw [hmain]; simp, ?_⟩
  intro r hr
  rw [hmain] at hr
  obtain ⟨ti, _, rfl⟩ := List.mem_map.mp hr
  unfold suite_record
  cases out ti di with
  | startFailure => intro _; rfl
  | started b => exact run_benchmark_failure_has_error _ _ _ _ b

/-- C7, witness with one test, one database and a failing readiness
probe. -/
theorem C7_suite_records_every_outcome_witness :
    (0 : ℕ) < 1 ∧
    ∀ r ∈ run_test_suite_restart [⟨10, 1, "t"⟩] 1 false (fun _ _ => TestOutcome.startFailure) 0,
      r.success = false → r.error.isSome :=
  ⟨by decide,
   (C7_suite_records_every_outcome [⟨10, 1, "t"⟩] 1 false
     (fun _ _ => TestOutcome.startFailure) 0 (by decide)).2.2⟩

/-! ## C8, C10 -/

theorem run_benchmark_parsed_records (n s a t : ℕ) (stdout : String)
    (hit : insert_time n s a stdout = some t) (ht0 : t ≠ 0) :
    run_benchmark n s a none (BenchOutcome.completed stdout) =
      { success := true, size := some s, attrs := some a, num_docs := some n,
        time_ms := some t, throughput := some (round2 ((n : ℚ) / ((t : ℚ) / 1000))) } ∧
    run_benchmark_oracle n s a (BenchOutcome.completed stdout) =
      { success := true, size := some s, attrs := some a, num_docs := some n,
        time_ms := some t, throughput := some (round2 ((n : ℚ) / ((t : ℚ) / 1000))) } := by
  have htq : ((t : ℚ)) ≠ 0 := Nat.cast_ne_zero.mpr ht0
  have hdiv : ((t : ℚ) / 1000) ≠ 0 := div_ne_zero htq (by norm_num)
  constructor
  · rw [run_benchmark, run_benchmark_body]
    cases hp : search_insert n s a stdout with
    | some t2 =>
      have ht2 : t2 = t := by
        simp only [insert_time, hp] at hit
        exact Option.some.inj hit
      subst ht2
      simp [pyDiv, hdiv, apply_query, bind, Except.bind]
    | none =>
      have ha : search_insert_alt n s stdout = some t := by
        simp only [insert_time, hp] at hit
        exact hit
      rw [ha]
      simp [pyDiv, hdiv, apply_query, bind, Except.bind]
  · rw [run_benchmark_oracle, run_benchmark_oracle_body, hit]
    simp [pyDiv, hdiv, bind, Except.bind]

/-- C8, counterexample: `run_benchmark` does not determine success solely
by the primary pattern with the requested attribute count — on a stdout
line reporting 7 attributes while 1 was requested, the primary pattern
does not match, yet the fallback pattern (any attribute count) makes the
run a success. -/
theorem C8_fallback_attrs_counterexample :
    search_insert 10 10 1
      "Best time to insert 10 documents with 10B payload in 7 attributes into indexed: 123ms" =
      none ∧
    (run_benchmark 10 10 1 none (BenchOutcome.completed
      "Best time to insert 10 documents with 10B payload in 7 attributes into indexed: 123ms")).success =
      true := by
  constructor
  · decide
  · rw [(run_benchmark_parsed_records 10 10 1 123 _ (by decide) (by decide)).1]

/-- C8, amended: `run_benchmark` (without query tests) returns a success
record with `time_ms = T` iff stdout matches the primary insert pattern
for the requested `num_docs`, `size` and `attrs` or, failing that, the
fallback pattern accepting any attribute count (with `T` the first such
capture), except that a parsed time of 0 ms is converted to a failure by
the throughput division; the same holds for the oracle-only runner. -/
theorem C8_success_iff_time_parsed (n s a : ℕ) (stdout : String)
    (hnz : insert_time n s a stdout ≠ some 0) :
    (((run_benchmark n s a none (BenchOutcome.completed stdout)).success = true) ↔
      (insert_time n s a stdout).isSome) ∧
    (∀ t, insert_time n s a stdout = some t →
      (run_benchmark n s a none (BenchOutcome.completed stdout)).time_ms = some t) ∧
    (((run_benchmark_oracle n s a (BenchOutcome.completed stdout)).success = true) ↔
      (insert_time n s a stdout).isSome) ∧
    (∀ t, insert_time n s a stdout = some t →
      (run_benchmark_oracle n s a (BenchOutcome.completed stdout)).time_ms = some t) := by
  cases hit : insert_time n s a stdout with
  | some t =>
    have ht0 : t ≠ 0 := fun h => hnz (h ▸ hit)
    obtain ⟨hart, hora⟩ := run_benchmark_parsed_records n s a t stdout hit ht0
    rw [hart, hora]
    simp
  | none =>
    have hp : search_insert n s a stdout = none := by
      cases hp2 : search_insert n s a stdout with
      | none => rfl
      | some t2 =>
        simp only [insert_time, hp2] at hit
        exact hit
    have ha : search_insert_alt n s stdout = none := by
      simp only [insert_time, hp] at hit
      exact hit
    have hart : run_benchmark n s a none (BenchOutcome.completed stdout) =
        { success := false, error := some "Could not parse output" } := by
      rw [run_benchmark, run_benchmark_body, hp, ha]
    have hora : run_benchmark_oracle n s a (BenchOutcome.completed stdout) =
        { success := false, error := some "Could not parse output" } := by
      rw [run_benchmark_oracle, run_benchmark_oracle_body, hit]
    rw [hart, hora]
    simp

/-- C8 amended, witness on a stdout with a parsed 55 ms insert time. -/
theorem C8_success_iff_time_parsed_witness :
    insert_time 10 10 1
      "Best time to insert 10 documents with 10B payload in 1 attribute into indexed: 55ms" ≠
      some 0 ∧
    (((run_benchmark 10 10 1 none (BenchOutcome.completed
      "Best time to insert 10 documents with 10B payload in 1 attribute into indexed: 55ms")).success =
        true) ↔
      (insert_time 10 10 1
        "Best time to insert 10 documents with 10B payload in 1 attribute into indexed: 55ms").isSome) :=
  ⟨by decide, (C8_success_iff_time_parsed 10 10 1 _ (by decide)).1⟩

/-- C10 (implicit): `run_benchmark` always returns a result record — every
failure record carries an `error` field — and a parsed insert time of
0 ms makes the throughput computation raise `ZeroDivisionError`, which is
caught and converted into the failure record
`{"success": False, "error": "float division by zero"}`. -/
theorem C10_zero_time_division_caught (n s a : ℕ) (ql : Option ℕ) (outcome : BenchOutcome) :
    ((run_benchmark n s a ql outcome).success = false →
      ((run_benchmark n s a ql outcome).error).isSome) ∧
    (∀ stdout, outcome = BenchOutcome.completed stdout →
      insert_time n s a stdout = some 0 →
      run_benchmark n s a ql outcome =
        { success := false, error := some "float division by zero" }) := by
  refine ⟨run_benchmark_failure_has_error n s a ql outcome, ?_⟩
  rintro stdout rfl h0
  rw [run_benchmark, run_benchmark_body]
  cases hp : search_insert n s a stdout with
  | some t =>
    have ht : t = 0 := by
      simp only [insert_time, hp] at h0
      exact Option.some.inj h0
    subst ht
    simp [pyDiv, PyExc.str, bind, Except.bind]
  | none =>
    have ha : search_insert_alt n s stdout = some 0 := by
      simp only [insert_time, hp] at h0
      exact h0
    rw [ha]
    simp [pyDiv, PyExc.str, bind, Except.bind]

/-- C10, witness on a stdout reporting a 0 ms insert time. -/
theorem C10_zero_time_division_caught_witness :
    insert_time 10 10 1
      "Best time to insert 10 documents with 10B payload in 1 attribute into indexed: 0ms" =
      some 0 ∧
    run_benchmark 10 10 1 none (BenchOutcome.completed
      "Best time to insert 10 documents with 10B payload in 1 attribute into indexed: 0ms") =
      { success := false, error := some "float division by zero" } :=
  ⟨by decide,
   (C10_zero_time_division_caught 10 10 1 none (BenchOutcome.completed
      "Best time to insert 10 documents with 10B payload in 1 attribute into indexed: 0ms")).2
     _ rfl (by decide)⟩

end BakeOff
